import Mathlib

/-!
Verification development for the langium semantic core: the grammar-language
scope provider and scope computation (grammar-scope.ts), the reference
resolver (references.ts) and the grammar validator's interface-extends check.
TypeScript sources are shallowly embedded as executable Lean definitions over
arena-indexed node stores; object references become Nat indices into arenas.
-/

namespace Langium

/-- A text segment of a CST node: start offset and end offset. -/
structure Seg where
  offset : Nat
  end_ : Nat
deriving DecidableEq, Repr

namespace Refs

/-- A cross-reference value as stored on an AST node: the CST node segment
of the reference text and the resolved target AST node, when resolution
succeeded. -/
structure Reference where
  refNode : Option Seg
  ref : Option Nat
deriving DecidableEq, Repr

/-- The value bound to an assignment feature on an AST node: a single
reference, an array of references, or a non-reference value such as a
string. -/
inductive FeatureValue where
  | single (r : Reference)
  | array (rs : List Reference)
  | primitive (s : String)
deriving DecidableEq, Repr

/-- A CST node: parent link, text offsets and the AST element it belongs to. -/
structure CstNode where
  parent : Option Nat
  offset : Nat
  end_ : Nat
  element : Option Nat
deriving DecidableEq, Repr

/-- An AST node as the reference resolver sees it: its feature values, the
CST node of its name (as assigned by the NameProvider), its document URI and
its structural path (as assigned by the AstNodeLocator). -/
structure AstNode where
  features : List (String × FeatureValue)
  nameNode : Option Nat
  docUri : String
  path : String
deriving DecidableEq, Repr

/-- One resolved cross-reference edge recorded in the workspace index. -/
structure ReferenceDescription where
  sourceUri : String
  sourcePath : String
  targetUri : String
  targetPath : String
  segment : Option Seg
  local_ : Bool
deriving DecidableEq, Repr

/-- The state the DefaultReferences service runs against: the CST arena, the
AST arena, the innermost-assignment table and the index's reference
descriptions. -/
structure RefsModel where
  cstNodes : List CstNode
  astNodes : List AstNode
  assignmentOf : List (Nat × String)
  indexRefs : List ReferenceDescription
deriving DecidableEq, Repr

def RefsModel.cst (m : RefsModel) (i : Nat) : Option CstNode :=
  m.cstNodes.get? i

def RefsModel.ast (m : RefsModel) (i : Nat) : Option AstNode :=
  m.astNodes.get? i

/-- Modelled from the spec: findAssignment (grammar-util, not under src)
locates the innermost Assignment governing a token; modelled as the
document-provided table mapping a CST node to that assignment's bound
feature name. -/
def findAssignment (m : RefsModel) (cid : Nat) : Option String :=
  m.assignmentOf.lookup cid

/-- Walks the CST parent chain of child, checking whether it passes through
the given ancestor; fuel bounds the walk by the arena size. -/
def ancestorWithin (m : RefsModel) : Nat → Nat → Nat → Bool
  | 0, _, _ => false
  | fuel+1, child, anc =>
    match m.cst child with
    | none => false
    | some c =>
      match c.parent with
      | none => false
      | some p => p == anc || ancestorWithin m fuel p anc

/-- Modelled from the spec: isCstChildNode (cst-util, not under src) decides
whether the first CST node is contained in (a strict descendant of) the
second. -/
def isCstChildNode (m : RefsModel) (child anc : Nat) : Bool :=
  ancestorWithin m m.cstNodes.length child anc

/-- DefaultReferences.findDeclaration: resolve the declaration a CST node
points at. Mirrors the source control flow: first the assignment-based
lookup (single reference returns its target, an array returns the element
whose source range contains the queried offsets), then, when the assignment
branch did not return, the name-token check on the node's element. -/
def findDeclaration (m : RefsModel) (scid : Nat) : Option Nat :=
  match m.cst scid with
  | none => none
  | some sc =>
    let viaAssignment : Option (Option Nat) :=
      match findAssignment m scid, sc.element with
      | some feat, some eid =>
        match m.ast eid with
        | none => none
        | some el =>
          match el.features.lookup feat with
          | some (.single r) => some r.ref
          | some (.array rs) =>
            match rs.find? (fun r =>
                match r.refNode with
                | some seg => decide (seg.offset ≤ sc.offset) && decide (sc.end_ ≤ seg.end_)
                | none => false) with
            | some r => some r.ref
            | none => none
          | _ => none
      | _, _ => none
    match viaAssignment with
    | some res => res
    | none =>
      match sc.element with
      | none => none
      | some eid =>
        match m.ast eid with
        | none => none
        | some el =>
          match el.nameNode with
          | some nn => if nn == scid || isCstChildNode m scid nn then some eid else none
          | none => none

/-- Options of DefaultReferences.findReferences. -/
structure FindReferencesOptions where
  documentUri : Option String
  includeDeclaration : Bool
deriving DecidableEq, Repr

/-- DefaultReferences.getReferenceToSelf: the synthetic self-reference for a
declaration's own name occurrence. -/
def getReferenceToSelf (m : RefsModel) (tid : Nat) : Option ReferenceDescription :=
  match m.ast tid with
  | none => none
  | some t =>
    match t.nameNode with
    | none => none
    | some nn =>
      some { sourceUri := t.docUri
             sourcePath := t.path
             targetUri := t.docUri
             targetPath := t.path
             segment := (m.cst nn).map (fun c => ⟨c.offset, c.end_⟩)
             local_ := true }

/-- Modelled from the spec: IndexManager.findAllReferences (index-manager,
not under src) streams all index entries whose outgoing references point at
the target's identity, its document URI plus structural path. -/
def findAllReferences (m : RefsModel) (targetUri targetPath : String) :
    List ReferenceDescription :=
  m.indexRefs.filter (fun rd => rd.targetUri == targetUri && rd.targetPath == targetPath)

/-- DefaultReferences.findReferences: optionally the self-reference first,
then the index references, filtered to the requested document when
options.documentUri is set. -/
def findReferences (m : RefsModel) (tid : Nat) (opts : FindReferencesOptions) :
    List ReferenceDescription :=
  let refs : List ReferenceDescription :=
    match opts.includeDeclaration, getReferenceToSelf m tid with
    | true, some r => [r]
    | _, _ => []
  let indexReferences : List ReferenceDescription :=
    match m.ast tid with
    | none => []
    | some t => findAllReferences m t.docUri t.path
  let indexReferences' : List ReferenceDescription :=
    match opts.documentUri with
    | some u => indexReferences.filter (fun rd => rd.sourceUri == u)
    | none => indexReferences
  refs ++ indexReferences'

/-- Definition following claim C3's words: the assignment cases apply when
the node lies under an assignment; the name-token case applies only when the
node is NOT inside an assignment; otherwise the result is undefined. -/
def findDeclarationClaimC3 (m : RefsModel) (scid : Nat) : Option Nat :=
  match m.cst scid with
  | none => none
  | some sc =>
    match findAssignment m scid, sc.element with
    | some feat, some eid =>
      match m.ast eid with
      | none => none
      | some el =>
        match el.features.lookup feat with
        | some (.single r) => r.ref
        | some (.array rs) =>
          match rs.find? (fun r =>
              match r.refNode with
              | some seg => decide (seg.offset ≤ sc.offset) && decide (sc.end_ ≤ seg.end_)
              | none => false) with
          | some r => r.ref
          | none => none
        | _ => none
    | _, _ =>
      match sc.element with
      | none => none
      | some eid =>
        match m.ast eid with
        | none => none
        | some el =>
          match el.nameNode with
          | some nn => if nn == scid || isCstChildNode m scid nn then some eid else none
          | none => none

/-- The assignment-branch answer of findDeclaration: some r when the branch
returns (with r the returned value, possibly none), none when it falls
through. -/
def assignmentAnswer (m : RefsModel) (scid : Nat) : Option (Option Nat) :=
  match m.cst scid with
  | none => none
  | some sc =>
    match findAssignment m scid, sc.element with
    | some feat, some eid =>
      match m.ast eid with
      | none => none
      | some el =>
        match el.features.lookup feat with
        | some (.single r) => some r.ref
        | some (.array rs) =>
          match rs.find? (fun r =>
              match r.refNode with
              | some seg => decide (seg.offset ≤ sc.offset) && decide (sc.end_ ≤ seg.end_)
              | none => false) with
          | some r => some r.ref
          | none => none
        | _ => none
    | _, _ => none

/-- The name-token answer of findDeclaration: the node's element when the
queried node is, or is contained in, that element's name token. -/
def nameTokenAnswer (m : RefsModel) (scid : Nat) : Option Nat :=
  match m.cst scid with
  | none => none
  | some sc =>
    match sc.element with
    | none => none
    | some eid =>
      match m.ast eid with
      | none => none
      | some el =>
        match el.nameNode with
        | some nn => if nn == scid || isCstChildNode m scid nn then some eid else none
        | none => none

/-- Definition following the amended claim C3: the name-token check applies
whenever the assignment branch did not return, including when the node lies
under an assignment whose bound value is not a reference or is an array with
no element whose range contains the queried offsets. -/
def findDeclarationAmendedC3 (m : RefsModel) (scid : Nat) : Option Nat :=
  match assignmentAnswer m scid with
  | some res => res
  | none => nameTokenAnswer m scid

/-- Counterexample model for C3: CST node 0 is the name token of AST element
0 and lies under the assignment binding feature "name" to the string value
of the element's name. -/
def exC3 : RefsModel :=
  { cstNodes := [{ parent := none, offset := 0, end_ := 2, element := some 0 }]
    astNodes := [{ features := [("name", .primitive "x")]
                   nameNode := some 0
                   docUri := "file:///a.langium"
                   path := "/rules@0" }]
    assignmentOf := [(0, "name")]
    indexRefs := [] }

end Refs

namespace GrammarScope

/-- The kind of a grammar AST node, carrying the data the scope subsystem
consults: a grammar's resolved import URIs (resolveImportUri may yield
undefined, hence Option), a parser rule's returns/dataType flags and its
optional InferredType child, an action's optional inferred type name. -/
inductive NodeKind where
  | grammar (imports : List (Option String))
  | parserRule (hasReturnType : Bool) (hasDataType : Bool) (inferredType : Option Nat)
  | inferredTypeNode
  | action (inferredTypeName : Option String)
  | interfaceDecl
  | typeDecl
  | returnType
  | other (tag : String)
deriving DecidableEq, Repr

/-- The AstReflection type tag of a node kind, as the generated ast module
names them. -/
def NodeKind.tag : NodeKind → String
  | .grammar _ => "Grammar"
  | .parserRule _ _ _ => "ParserRule"
  | .inferredTypeNode => "InferredType"
  | .action _ => "Action"
  | .interfaceDecl => "Interface"
  | .typeDecl => "Type"
  | .returnType => "ReturnType"
  | .other tag => tag

/-- A grammar AST node: container back-pointer, kind, optional name, the
segment of its name token (NameProvider.getNameNode), the segment of its own
CST node, and its AstNodeLocator path. -/
structure GNode where
  container : Option Nat
  kind : NodeKind
  name : Option String
  nameSeg : Option Seg
  cstSeg : Option Seg
  path : String
deriving DecidableEq, Repr

/-- An AstNodeDescription as the scope subsystem produces and consumes it. -/
structure GDesc where
  node : Nat
  name : String
  type : String
  documentUri : String
  path : String
  nameSegment : Option Seg
  selectionSegment : Option Seg
deriving DecidableEq, Repr

/-- A parsed document: URI, node arena and, once computed, its precomputed
scopes (a multimap from container node to visible descriptions). -/
structure GDoc where
  uri : String
  nodes : List GNode
  precomputedScopes : Option (List (Nat × GDesc))
deriving DecidableEq, Repr

def GDoc.node (d : GDoc) (i : Nat) : Option GNode :=
  d.nodes.get? i

/-- The multimap lookup of precomputed scopes: all descriptions recorded at
the given container, in insertion order. -/
def entriesAt (pre : List (Nat × GDesc)) (k : Nat) : List GDesc :=
  (pre.filter (fun p => p.1 == k)).map Prod.snd

/-- The container chain of a node: the node itself, then its containers
upward; fuel bounds the walk by the arena size. -/
def containerChain (d : GDoc) : Nat → Nat → List Nat
  | 0, nid => [nid]
  | fuel+1, nid =>
    match d.node nid with
    | none => [nid]
    | some n =>
      match n.container with
      | none => [nid]
      | some c => nid :: containerChain d fuel c

/-- findRootNode (ast-util, not under src — modelled from the spec: follows
the container back-pointers up to the document root), fuelled. -/
def findRootNodeFuel (d : GDoc) : Nat → Nat → Nat
  | 0, nid => nid
  | fuel+1, nid =>
    match d.node nid with
    | none => nid
    | some n =>
      match n.container with
      | none => nid
      | some c => findRootNodeFuel d fuel c

def findRootNode (d : GDoc) (nid : Nat) : Nat :=
  findRootNodeFuel d d.nodes.length nid

/-- getContainerOfType with the isGrammar predicate: the node itself when it
is a grammar, else the nearest grammar ancestor. -/
def containingGrammar (d : GDoc) : Nat → Nat → Option Nat
  | 0, _ => none
  | fuel+1, nid =>
    match d.node nid with
    | none => none
    | some n =>
      match n.kind with
      | .grammar _ => some nid
      | _ =>
        match n.container with
        | none => none
        | some c => containingGrammar d fuel c

/-- Whether nid lies strictly below anc in the containment tree, fuelled. -/
def isDescendantOf (d : GDoc) : Nat → Nat → Nat → Bool
  | 0, _, _ => false
  | fuel+1, nid, anc =>
    match d.node nid with
    | none => false
    | some n =>
      match n.container with
      | none => false
      | some c => c == anc || isDescendantOf d fuel c anc

/-- The workspace as the scope provider sees it: the documents and the
IndexManager's export table over all documents. -/
structure Workspace where
  docs : List GDoc
  index : List GDesc
deriving DecidableEq, Repr

/-- A reference occurrence: its containing document, its container node in
that document, and the declared target category computed by
reflection.getReferenceType. -/
structure ReferenceInfo where
  doc : Nat
  container : Nat
  referenceType : String
deriving DecidableEq, Repr

def getDoc (ws : Workspace) (ctx : ReferenceInfo) : GDoc :=
  (ws.docs.get? ctx.doc).getD { uri := "", nodes := [], precomputedScopes := none }

/-- Modelled from the spec: the generated AstReflection subtype relation
restricted to what the scope subsystem consults. Every tag is a subtype of
itself, and the AST-node tags Interface, Type, ParserRule and Action are
subtypes of the polymorphic category AbstractType (which is why the scope
provider re-filters AbstractType queries down to Interface and Type). -/
def isSubtype (t su : String) : Bool :=
  t == su ||
    (su == "AbstractType" &&
      (t == "Interface" || t == "Type" || t == "ParserRule" || t == "Action"))

/-- Modelled from the spec: IndexManager.allElements (index-manager, not
under src) streams every exported description across the entire workspace
whose type tag matches the requested category. -/
def allElements (ws : Workspace) (referenceType : String) : List GDesc :=
  ws.index.filter (fun des => isSubtype des.type referenceType)

/-- A scope: a layered lookup chain of description lists; StreamScope with
no outer scope is a stream layer over the empty scope. -/
inductive Scope where
  | empty
  | stream (elements : List GDesc) (outer : Scope)
deriving DecidableEq, Repr

def EMPTY_SCOPE : Scope := .empty

/-- StreamScope.getElement: the first description of the given name scanning
layers nearest-first. -/
def Scope.getElement : Scope → String → Option GDesc
  | .empty, _ => none
  | .stream elements outer, n =>
    match elements.find? (fun des => des.name == n) with
    | some des => some des
    | none => outer.getElement n

/-- All descriptions reachable in a scope, nearest layer first. -/
def Scope.allElems : Scope → List GDesc
  | .empty => []
  | .stream elements outer => elements ++ outer.allElems

/-- DefaultScopeProvider.createScope: a stream layer over an outer scope. -/
def createScope (elements : List GDesc) (outer : Scope) : Scope :=
  .stream elements outer

/-- The resolved import URIs of the grammar node gid: grammar.imports mapped
through resolveImportUri, undefined results dropped. -/
def grammarImports (d : GDoc) (gid : Nat) : List String :=
  match d.node gid with
  | none => []
  | some n =>
    match n.kind with
    | .grammar imports => imports.filterMap id
    | _ => []

/-- LangiumGrammarScopeProvider.getGlobalScope: empty when the context has
no enclosing grammar; otherwise all index elements of the requested category
restricted to documents named by the grammar's imports, and, for
AbstractType requests, further restricted to Interface/Type descriptions. -/
def getGlobalScope (ws : Workspace) (referenceType : String) (ctx : ReferenceInfo) : Scope :=
  let d := getDoc ws ctx
  match containingGrammar d d.nodes.length ctx.container with
  | none => EMPTY_SCOPE
  | some gid =>
    let importedUris := grammarImports d gid
    let importedElements :=
      (allElements ws referenceType).filter
        (fun des => importedUris.any (fun importedUri => des.documentUri == importedUri))
    let importedElements :=
      if referenceType == "AbstractType" then
        importedElements.filter (fun des => des.type == "Interface" || des.type == "Type")
      else importedElements
    .stream importedElements .empty

/-- LangiumGrammarScopeProvider.getTypeScope: a local layer from the
precomputed descriptions at the root node of the reference's container,
filtered to Interface/Type tags, over the import-filtered global scope. -/
def getTypeScope (ws : Workspace) (referenceType : String) (ctx : ReferenceInfo) : Scope :=
  let d := getDoc ws ctx
  let localScope : Option (List GDesc) :=
    match d.precomputedScopes with
    | none => none
    | some precomputed =>
      let rootNode := findRootNode d ctx.container
      let allDescriptions := entriesAt precomputed rootNode
      if 0 < allDescriptions.length then
        some (allDescriptions.filter (fun des => des.type == "Interface" || des.type == "Type"))
      else none
  let globalScope := getGlobalScope ws referenceType ctx
  match localScope with
  | some l => createScope l globalScope
  | none => globalScope

/-- Modelled from the spec: DefaultScopeProvider.getScope (scope-provider,
not under src): the precomputed-scope layers along the container chain, each
filtered to descriptions whose type tag is a subtype of the reference's
declared category, stacked nearest-first over the global scope; getGlobalScope
dispatches dynamically to the LangiumGrammarScopeProvider override. -/
def defaultGetScope (ws : Workspace) (ctx : ReferenceInfo) : Scope :=
  let d := getDoc ws ctx
  let referenceType := ctx.referenceType
  let layers : List (List GDesc) :=
    match d.precomputedScopes with
    | none => []
    | some precomputed =>
      (containerChain d d.nodes.length ctx.container).filterMap (fun currentNode =>
        let allDescriptions := entriesAt precomputed currentNode
        if 0 < allDescriptions.length then
          some (allDescriptions.filter (fun des => isSubtype des.type referenceType))
        else none)
  layers.foldr (fun l acc => createScope l acc) (getGlobalScope ws referenceType ctx)

/-- LangiumGrammarScopeProvider.getScope: the type-scope path for references
whose declared category is AbstractType, else the default resolution. -/
def getScope (ws : Workspace) (ctx : ReferenceInfo) : Scope :=
  if ctx.referenceType == "AbstractType" then getTypeScope ws "AbstractType" ctx
  else defaultGetScope ws ctx

/-- Definition following claim C1's words: the default resolution with a
global layer drawn from the entire workspace index, unfiltered by the
containing grammar's imports. -/
def defaultGetScopeClaimC1 (ws : Workspace) (ctx : ReferenceInfo) : Scope :=
  let d := getDoc ws ctx
  let referenceType := ctx.referenceType
  let layers : List (List GDesc) :=
    match d.precomputedScopes with
    | none => []
    | some precomputed =>
      (containerChain d d.nodes.length ctx.container).filterMap (fun currentNode =>
        let allDescriptions := entriesAt precomputed currentNode
        if 0 < allDescriptions.length then
          some (allDescriptions.filter (fun des => isSubtype des.type referenceType))
        else none)
  layers.foldr (fun l acc => createScope l acc) (.stream (allElements ws referenceType) .empty)

/-- Definition following claim C2's words: the local layer is built from the
precomputed descriptions recorded at the reference's container itself. -/
def getTypeScopeClaimC2 (ws : Workspace) (ctx : ReferenceInfo) : Scope :=
  let d := getDoc ws ctx
  let localScope : Option (List GDesc) :=
    match d.precomputedScopes with
    | none => none
    | some precomputed =>
      let allDescriptions := entriesAt precomputed ctx.container
      if 0 < allDescriptions.length then
        some (allDescriptions.filter (fun des => des.type == "Interface" || des.type == "Type"))
      else none
  let globalScope := getGlobalScope ws "AbstractType" ctx
  match localScope with
  | some l => createScope l globalScope
  | none => globalScope

/-- The local layer of the amended claim C2: the precomputed descriptions at
the ROOT node of the reference's container, filtered to Interface/Type. -/
def localTypeDescriptions (ws : Workspace) (ctx : ReferenceInfo) : List GDesc :=
  let d := getDoc ws ctx
  match d.precomputedScopes with
  | none => []
  | some precomputed =>
    (entriesAt precomputed (findRootNode d ctx.container)).filter
      (fun des => des.type == "Interface" || des.type == "Type")

/-- Definition following the amended claim C2: the Interface/Type-filtered
descriptions at the document root of the reference's container, composed
over the import-filtered Interface/Type global layer. -/
def getTypeScopeAmendedC2 (ws : Workspace) (ctx : ReferenceInfo) : Scope :=
  .stream (localTypeDescriptions ws ctx) (getGlobalScope ws "AbstractType" ctx)

/-- LangiumGrammarScopeComputation.createInterfaceDescription: a description
tagged Interface, anchored at the given node: its name segment is the node's
name token (falling back to the node's own CST node), its selection segment
the node's CST node, its path the node's locator path. -/
def createInterfaceDescription (d : GDoc) (nid : Nat) (name : String) : GDesc :=
  match d.node nid with
  | none =>
    { node := nid, name := name, type := "Interface", documentUri := d.uri
      path := "", nameSegment := none, selectionSegment := none }
  | some n =>
    { node := nid
      name := name
      type := "Interface"
      documentUri := d.uri
      path := n.path
      nameSegment := match n.nameSeg with | some s => some s | none => n.cstSeg
      selectionSegment := n.cstSeg }

/-- Modelled from the spec: DefaultScopeComputation.exportNode
(scope-computation, not under src) exports a named node under its own name
with its own type tag. -/
def defaultExportNode (d : GDoc) (nid : Nat) : List GDesc :=
  match d.node nid with
  | none => []
  | some n =>
    match n.name with
    | none => []
    | some nm =>
      [{ node := nid, name := nm, type := n.kind.tag, documentUri := d.uri
         path := n.path, nameSegment := n.nameSeg, selectionSegment := n.cstSeg }]

/-- LangiumGrammarScopeComputation.exportNode: the default export plus, for
a parser rule with neither returns nor dataType, a synthetic Interface
description for the rule's inferred type (anchored at the InferredType child
when an infers clause is present, else at the rule node), plus one synthetic
Interface description per infer-action among the rule's descendants. -/
def exportNode (d : GDoc) (nid : Nat) : List GDesc :=
  let base := defaultExportNode d nid
  match d.node nid with
  | none => base
  | some n =>
    match n.kind with
    | .parserRule hasReturnType hasDataType inferredType =>
      let ruleTypeExports :=
        if !hasReturnType && !hasDataType then
          let typeNode := inferredType.getD nid
          let typeName :=
            match d.node typeNode with
            | some tn => tn.name.getD ""
            | none => ""
          [createInterfaceDescription d typeNode typeName]
        else []
      let actionExports :=
        (List.range d.nodes.length).filterMap (fun childNode =>
          if isDescendantOf d d.nodes.length childNode nid then
            match d.node childNode with
            | some cn =>
              match cn.kind with
              | .action (some typeName) => some (createInterfaceDescription d childNode typeName)
              | _ => none
            | none => none
          else none)
      base ++ ruleTypeExports ++ actionExports
    | _ => base

/-- LangiumGrammarScopeComputation.processTypeNode: for a parser rule with
neither returns nor dataType, add the synthetic Interface description for
the rule's inferred type to the scope of the rule's immediate container. -/
def processTypeNodeEntries (d : GDoc) (nid : Nat) : List (Nat × GDesc) :=
  match d.node nid with
  | none => []
  | some n =>
    match n.container with
    | none => []
    | some container =>
      match n.kind with
      | .parserRule hasReturnType hasDataType inferredType =>
        if !hasReturnType && !hasDataType then
          let typeNode := inferredType.getD nid
          let typeName :=
            match d.node typeNode with
            | some tn => tn.name.getD ""
            | none => ""
          [(container, createInterfaceDescription d typeNode typeName)]
        else []
      | _ => []

/-- LangiumGrammarScopeComputation.processActionNode: for an infer-action,
add the synthetic Interface description to the scope of the document's ROOT
node (findRootNode), not the action's own container. -/
def processActionNodeEntries (d : GDoc) (nid : Nat) : List (Nat × GDesc) :=
  match d.node nid with
  | none => []
  | some n =>
    let container := findRootNode d nid
    match n.kind with
    | .action (some typeName) => [(container, createInterfaceDescription d nid typeName)]
    | _ => []

/-- Modelled from the spec: DefaultScopeComputation.processNode
(scope-computation, not under src) adds a named node's description to the
scope of its immediate container. -/
def defaultProcessEntries (d : GDoc) (nid : Nat) : List (Nat × GDesc) :=
  match d.node nid with
  | none => []
  | some n =>
    match n.container, n.name with
    | some container, some nm =>
      [(container,
        { node := nid, name := nm, type := n.kind.tag, documentUri := d.uri
          path := n.path, nameSegment := n.nameSeg, selectionSegment := n.cstSeg })]
    | _, _ => []

/-- LangiumGrammarScopeComputation.processNode: skip ReturnType nodes, then
the type-node entries, the action-node entries and the default entry. -/
def processNodeEntries (d : GDoc) (nid : Nat) : List (Nat × GDesc) :=
  match d.node nid with
  | none => []
  | some n =>
    match n.kind with
    | .returnType => []
    | _ =>
      processTypeNodeEntries d nid ++ processActionNodeEntries d nid ++
        defaultProcessEntries d nid

/-- The precomputed scopes of a document: the entries contributed by
processing every node of the arena. -/
def computeScopes (d : GDoc) : List (Nat × GDesc) :=
  (List.range d.nodes.length).flatMap (processNodeEntries d)

/-- The descriptions visible at a node: the entries recorded at the node and
at every container on its chain up to the document root (chained local
visibility). -/
def visibleAt (d : GDoc) (scopes : List (Nat × GDesc)) (nid : Nat) : List GDesc :=
  (containerChain d d.nodes.length nid).flatMap (entriesAt scopes)

end GrammarScope

namespace Validation

/-- A validator diagnostic: severity, message, the name of the AST node it
is attached to, and the property it is attached to. -/
structure Diagnostic where
  severity : String
  message : String
  nodeName : String
  property : Option String
deriving DecidableEq, Repr

/-- A declared interface of a grammar under validation: its name and the
names its superTypes references resolve to. -/
structure VInterface where
  name : String
  superTypes : List String
deriving DecidableEq, Repr

/-- A grammar as the interface-extends check sees it: the names of inferred
rule types (rules without returns or dataType), the declared interfaces and
the declared union type names. -/
structure VGrammar where
  inferredRuleTypes : List String
  interfaces : List VInterface
  declaredTypeNames : List String
deriving DecidableEq, Repr

/-- Modelled from the spec: the interface-extends-inferred check of the
grammar validator (validation/validator, not under src). For each interface
superTypes entry that resolves only to an inferred rule type, one diagnostic
attached to the interface's superTypes property, with the message the test
suite matches. The severity is taken from the repository's own test, which
asserts this diagnostic with expectError, an error-severity assertion, even
though the test's name and comment call it a warning. -/
def checkInterfaceExtendsInferred (g : VGrammar) : List Diagnostic :=
  g.interfaces.flatMap (fun i =>
    i.superTypes.filterMap (fun st =>
      if g.inferredRuleTypes.contains st &&
          !(g.interfaces.any (fun j => j.name == st)) &&
          !(g.declaredTypeNames.contains st) then
        some { severity := "error"
               message := "Extending an inferred type is discouraged."
               nodeName := i.name
               property := some "superTypes" }
      else none))

/-- The grammar of the C7 claim: a rule InferredT inferring its own type,
and a declared interface extending that inferred type. -/
def g7 : VGrammar :=
  { inferredRuleTypes := ["InferredT"]
    interfaces := [{ name := "DeclaredExtendsInferred", superTypes := ["InferredT"] }]
    declaredTypeNames := [] }

end Validation

namespace Refs

/-- Concrete model for C10: CST node 0 lies under the assignment binding
feature "tgt", whose value is a single unresolved reference, and node 0 is
also the name token of its own element. -/
def exC10 : RefsModel :=
  { cstNodes := [{ parent := none, offset := 0, end_ := 2, element := some 0 }]
    astNodes := [{ features := [("tgt", .single { refNode := some ⟨0, 2⟩, ref := none })]
                   nameNode := some 0
                   docUri := "file:///a.langium"
                   path := "/rules@0" }]
    assignmentOf := [(0, "tgt")]
    indexRefs := [] }

/-- Concrete model for C4/C9: the target declaration lives in document a;
the index holds two references to it from documents b and c and one
reference to a different target. -/
def exC4 : RefsModel :=
  { cstNodes := [{ parent := none, offset := 5, end_ := 8, element := some 0 }]
    astNodes := [{ features := []
                   nameNode := some 0
                   docUri := "file:///a.langium"
                   path := "/rules@0" }]
    assignmentOf := []
    indexRefs :=
      [{ sourceUri := "file:///b.langium", sourcePath := "/rules@1/definition"
         targetUri := "file:///a.langium", targetPath := "/rules@0"
         segment := some ⟨30, 33⟩, local_ := false },
       { sourceUri := "file:///c.langium", sourcePath := "/rules@2/definition"
         targetUri := "file:///a.langium", targetPath := "/rules@0"
         segment := some ⟨40, 43⟩, local_ := false },
       { sourceUri := "file:///b.langium", sourcePath := "/rules@3/definition"
         targetUri := "file:///a.langium", targetPath := "/rules@9"
         segment := some ⟨50, 53⟩, local_ := false }] }

/-- Options for the C4/C9 witnesses: restrict to document b, include the
declaration; note document b differs from the target's own document a. -/
def optsC4 : FindReferencesOptions :=
  { documentUri := some "file:///b.langium", includeDeclaration := true }

end Refs

namespace GrammarScope

/-- An index description of a parser rule exported by document b. -/
def descR : GDesc :=
  { node := 0, name := "R", type := "ParserRule", documentUri := "file:///b.langium"
    path := "/rules@0", nameSegment := none, selectionSegment := none }

/-- Workspace for the C1 counterexample: one grammar document with no
imports; the index holds a ParserRule description from an unimported
document. -/
def ws1 : Workspace :=
  { docs := [{ uri := "file:///a.langium"
               nodes := [{ container := none, kind := .grammar [], name := some "G"
                           nameSeg := none, cstSeg := none, path := "/" }]
               precomputedScopes := some [] }]
    index := [descR] }

/-- A reference with declared target category ParserRule (not AbstractType)
inside the ws1 grammar. -/
def ctx1 : ReferenceInfo := { doc := 0, container := 0, referenceType := "ParserRule" }

/-- Workspace for the C1 amended witness: the same grammar, now importing
document b. -/
def ws1w : Workspace :=
  { docs := [{ uri := "file:///a.langium"
               nodes := [{ container := none, kind := .grammar [some "file:///b.langium"]
                           name := some "G", nameSeg := none, cstSeg := none, path := "/" }]
               precomputedScopes := some [] }]
    index := [descR] }

/-- An Interface description recorded in the precomputed scopes of the ws2
document at its root. -/
def descT : GDesc :=
  { node := 2, name := "T", type := "Interface", documentUri := "file:///a.langium"
    path := "/interfaces@0", nameSegment := none, selectionSegment := none }

/-- Workspace for the C2 counterexample: a grammar whose precomputed scopes
record the Interface description descT at the root node only; the reference
context sits inside a nested interface node that has no entries of its
own. -/
def ws2 : Workspace :=
  { docs := [{ uri := "file:///a.langium"
               nodes := [{ container := none, kind := .grammar [], name := some "G"
                           nameSeg := none, cstSeg := none, path := "/" },
                         { container := some 0, kind := .interfaceDecl, name := some "X"
                           nameSeg := some ⟨8, 9⟩, cstSeg := some ⟨0, 20⟩, path := "/interfaces@1" }]
               precomputedScopes := some [(0, descT)] }]
    index := [] }

/-- An AbstractType reference whose container is the nested interface node
of ws2. -/
def ctx2 : ReferenceInfo := { doc := 0, container := 1, referenceType := "AbstractType" }

/-- Document for the C5 counterexample: a parser rule with an infers clause;
the rule's name token and the inferred-type node's name token differ. -/
def ex5 : GDoc :=
  { uri := "file:///a.langium"
    nodes := [{ container := none, kind := .parserRule false false (some 1), name := some "R"
                nameSeg := some ⟨0, 1⟩, cstSeg := some ⟨0, 20⟩, path := "/rules@0" },
              { container := some 0, kind := .inferredTypeNode, name := some "X"
                nameSeg := some ⟨9, 10⟩, cstSeg := some ⟨9, 10⟩, path := "/rules@0/inferredType" }]
    precomputedScopes := none }

/-- Document for the C5 amended witness: a plain parser rule with neither
returns, dataType nor infers clause. -/
def ex5w : GDoc :=
  { uri := "file:///w.langium"
    nodes := [{ container := none, kind := .parserRule false false none, name := some "R"
                nameSeg := some ⟨0, 1⟩, cstSeg := some ⟨0, 12⟩, path := "/rules@0" }]
    precomputedScopes := none }

/-- Workspace for the C6 witness: a document whose root node is not a
grammar and whose precomputed scopes were never computed; the index is
nonempty. -/
def ws3 : Workspace :=
  { docs := [{ uri := "file:///x.langium"
               nodes := [{ container := none, kind := .interfaceDecl, name := some "X"
                           nameSeg := none, cstSeg := none, path := "/" }]
               precomputedScopes := none }]
    index := [descR] }

/-- An AbstractType reference context whose container has no enclosing
grammar. -/
def ctx3 : ReferenceInfo := { doc := 0, container := 0, referenceType := "AbstractType" }

/-- Document for the C8 witness: a grammar with a parser rule, an
infer-action nested inside the rule, and a separate interface declaration. -/
def d8 : GDoc :=
  { uri := "file:///d8.langium"
    nodes := [{ container := none, kind := .grammar [], name := some "G"
                nameSeg := none, cstSeg := none, path := "/" },
              { container := some 0, kind := .parserRule false false none, name := some "R"
                nameSeg := some ⟨10, 11⟩, cstSeg := some ⟨10, 30⟩, path := "/rules@0" },
              { container := some 1, kind := .action (some "A"), name := none
                nameSeg := none, cstSeg := some ⟨20, 28⟩, path := "/rules@0/definition" },
              { container := some 0, kind := .interfaceDecl, name := some "I"
                nameSeg := some ⟨40, 41⟩, cstSeg := some ⟨35, 50⟩, path := "/interfaces@0" }]
    precomputedScopes := none }

end GrammarScope

/-- C3 counterexample: on a name token lying under the assignment binding
the element's string-valued name feature, findDeclaration returns the
element itself, while the claim's case analysis (name-token check only when
the node is not inside an assignment, otherwise undefined) yields
undefined. -/
theorem C3_findDeclaration_counterexample :
    Refs.findDeclaration Refs.exC3 0 = some 0 ∧
    Refs.findDeclarationClaimC3 Refs.exC3 0 = none := by
  constructor <;> rfl

/-- C3 amended: findDeclaration follows the claimed assignment cases, but
the name-token check applies whenever the assignment branch did not return,
including when the node lies under an assignment whose bound value is not a
reference or is an array with no element whose range contains the queried
offsets; only then is undefined returned. -/
theorem C3_findDeclaration_amended (m : Refs.RefsModel) (scid : Nat) :
    Refs.findDeclaration m scid = Refs.findDeclarationAmendedC3 m scid := by
  unfold Refs.findDeclaration Refs.findDeclarationAmendedC3 Refs.assignmentAnswer
    Refs.nameTokenAnswer
  cases m.cst scid <;> rfl

/-- C10: when the innermost assignment's bound feature value is a single
unresolved reference, findDeclaration returns undefined from the assignment
branch, without falling through to the name-token check. -/
theorem C10_findDeclaration_unresolved_single (m : Refs.RefsModel) (scid : Nat)
    (sc : Refs.CstNode) (eid : Nat) (el : Refs.AstNode) (feat : String) (r : Refs.Reference)
    (hc : m.cst scid = some sc) (ha : Refs.findAssignment m scid = some feat)
    (he : sc.element = some eid) (hel : m.ast eid = some el)
    (hf : el.features.lookup feat = some (.single r)) (hr : r.ref = none) :
    Refs.findDeclaration m scid = none := by
  unfold Refs.findDeclaration
  simp only [hc, ha, he, hel, hf, hr]

/-- C10 witness: in exC10 the queried node is the name token of its own
element, yet the unresolved single reference makes findDeclaration return
undefined. -/
theorem C10_findDeclaration_unresolved_single_witness :
    Refs.findDeclaration Refs.exC10 0 = none ∧
    (Refs.exC10.astNodes.get? 0).map Refs.AstNode.nameNode = some (some 0) :=
  ⟨C10_findDeclaration_unresolved_single Refs.exC10 0
      { parent := none, offset := 0, end_ := 2, element := some 0 } 0
      { features := [("tgt", .single { refNode := some ⟨0, 2⟩, ref := none })]
        nameNode := some 0, docUri := "file:///a.langium", path := "/rules@0" }
      "tgt" { refNode := some ⟨0, 2⟩, ref := none }
      rfl rfl rfl rfl rfl rfl,
    rfl⟩

/-- C4: findReferences is the optional self-reference (present exactly when
includeDeclaration is set and the target has a name node) prefixed to the
index references targeting the node's identity, the latter filtered to
options.documentUri when it is set. -/
theorem C4_findReferences_spec (m : Refs.RefsModel) (tid : Nat) (t : Refs.AstNode)
    (opts : Refs.FindReferencesOptions) (ht : m.ast tid = some t) :
    Refs.findReferences m tid opts =
      (if opts.includeDeclaration then (Refs.getReferenceToSelf m tid).toList else []) ++
        (match opts.documentUri with
         | some u => (Refs.findAllReferences m t.docUri t.path).filter
             (fun rd => rd.sourceUri == u)
         | none => Refs.findAllReferences m t.docUri t.path) ∧
    ((Refs.getReferenceToSelf m tid).isSome ↔ t.nameNode.isSome) := by
  constructor
  · unfold Refs.findReferences
    rw [ht]
    cases hinc : opts.includeDeclaration <;>
      cases hs : Refs.getReferenceToSelf m tid <;>
        cases hu : opts.documentUri <;> simp [Option.toList]
  · unfold Refs.getReferenceToSelf
    simp only [ht]
    cases hn : t.nameNode <;> simp [hn]

/-- C4 witness: on the concrete exC4 model with documentUri set to document
b and includeDeclaration set. -/
theorem C4_findReferences_spec_witness :
    Refs.findReferences Refs.exC4 0 Refs.optsC4 =
      (if Refs.optsC4.includeDeclaration
        then (Refs.getReferenceToSelf Refs.exC4 0).toList else []) ++
        (match Refs.optsC4.documentUri with
         | some u => (Refs.findAllReferences Refs.exC4 "file:///a.langium" "/rules@0").filter
             (fun rd => rd.sourceUri == u)
         | none => Refs.findAllReferences Refs.exC4 "file:///a.langium" "/rules@0") :=
  (C4_findReferences_spec Refs.exC4 0
      { features := [], nameNode := some 0
        docUri := "file:///a.langium", path := "/rules@0" }
      Refs.optsC4 rfl).1

/-- C9: with includeDeclaration and documentUri both set, the self-reference
is in the result regardless of the target's own document, it is local with
identical source/target URI and path, and every other returned description
passed the documentUri filter. -/
theorem C9_findReferences_selfRef (m : Refs.RefsModel) (tid : Nat)
    (opts : Refs.FindReferencesOptions) (u : String) (r : Refs.ReferenceDescription)
    (hinc : opts.includeDeclaration = true)
    (hu : opts.documentUri = some u)
    (hr : Refs.getReferenceToSelf m tid = some r) :
    r ∈ Refs.findReferences m tid opts ∧
    r.local_ = true ∧ r.sourceUri = r.targetUri ∧ r.sourcePath = r.targetPath ∧
    ∀ rd ∈ Refs.findReferences m tid opts, rd = r ∨ rd.sourceUri == u := by
  have hshape : r.local_ = true ∧ r.sourceUri = r.targetUri ∧ r.sourcePath = r.targetPath := by
    unfold Refs.getReferenceToSelf at hr
    cases hast : m.ast tid with
    | none => simp only [hast] at hr; exact Option.noConfusion hr
    | some t =>
      simp only [hast] at hr
      cases hn : t.nameNode with
      | none => simp only [hn] at hr; exact Option.noConfusion hr
      | some nn =>
        simp only [hn] at hr
        cases hr
        exact ⟨rfl, rfl, rfl⟩
  have hlist : Refs.findReferences m tid opts =
      r :: (match m.ast tid with
            | none => ([] : List Refs.ReferenceDescription)
            | some t => Refs.findAllReferences m t.docUri t.path).filter
        (fun rd => rd.sourceUri == u) := by
    unfold Refs.findReferences
    rw [hinc, hr, hu]
    rfl
  refine ⟨?_, hshape.1, hshape.2.1, hshape.2.2, ?_⟩
  · rw [hlist]; exact List.mem_cons_self _ _
  · intro rd hrd
    rw [hlist] at hrd
    rcases List.mem_cons.mp hrd with h | h
    · exact Or.inl h
    · exact Or.inr (List.mem_filter.mp h).2

/-- Helper: the root computed by findRootNodeFuel lies on the container
chain computed with the same fuel. -/
theorem findRootNodeFuel_mem_containerChain (d : GrammarScope.GDoc) :
    ∀ fuel nid, GrammarScope.findRootNodeFuel d fuel nid ∈
      GrammarScope.containerChain d fuel nid := by
  intro fuel
  induction fuel with
  | zero =>
    intro nid
    simp [GrammarScope.findRootNodeFuel, GrammarScope.containerChain]
  | succ k ih =>
    intro nid
    unfold GrammarScope.findRootNodeFuel GrammarScope.containerChain
    cases hn : d.node nid with
    | none => simp
    | some n =>
      simp only
      cases hc : n.container with
      | none => simp [hc]
      | some c =>
        simp only [hc]
        exact List.mem_cons_of_mem _ (ih c)

/-- C1 counterexample: a ParserRule reference in a grammar with no imports;
the workspace index holds a matching ParserRule description from an
unimported document. getScope cannot see it, while the claimed resolution
with an import-unfiltered global layer finds it. -/
theorem C1_getScope_counterexample :
    (GrammarScope.getScope GrammarScope.ws1 GrammarScope.ctx1).getElement "R" = none ∧
    (GrammarScope.defaultGetScopeClaimC1 GrammarScope.ws1 GrammarScope.ctx1).getElement "R" =
      some GrammarScope.descR := by
  constructor <;> rfl

/-- C1 amended: for a reference whose declared category is not AbstractType,
getScope delegates to the default resolution, but the global layer is still
drawn from the index filtered by the containing grammar's imports, because
the overridden getGlobalScope applies the import filter for every reference
category; only the Interface/UnionType tag filter is AbstractType-specific. -/
theorem C1_getScope_default_import_filtered (ws : GrammarScope.Workspace)
    (ctx : GrammarScope.ReferenceInfo)
    (h : ¬ ctx.referenceType = "AbstractType") :
    GrammarScope.getScope ws ctx = GrammarScope.defaultGetScope ws ctx ∧
    ∀ des ∈ (GrammarScope.getGlobalScope ws ctx.referenceType ctx).allElems,
      GrammarScope.isSubtype des.type ctx.referenceType = true ∧
      ∃ gid, GrammarScope.containingGrammar (GrammarScope.getDoc ws ctx)
          (GrammarScope.getDoc ws ctx).nodes.length ctx.container = some gid ∧
        des.documentUri ∈ GrammarScope.grammarImports (GrammarScope.getDoc ws ctx) gid := by
  have hb : (ctx.referenceType == "AbstractType") = false := by simp [h]
  constructor
  · unfold GrammarScope.getScope
    rw [hb]
    simp
  · intro des hdes
    unfold GrammarScope.getGlobalScope at hdes
    cases hcg : GrammarScope.containingGrammar (GrammarScope.getDoc ws ctx)
        (GrammarScope.getDoc ws ctx).nodes.length ctx.container with
    | none =>
      simp only [hcg] at hdes
      simp [GrammarScope.EMPTY_SCOPE, GrammarScope.Scope.allElems] at hdes
    | some gid =>
      simp only [hcg, hb] at hdes
      simp only [Bool.false_eq_true, if_false, GrammarScope.Scope.allElems,
        List.append_nil] at hdes
      have h1 := (List.mem_filter.mp hdes).1
      have h2 := (List.mem_filter.mp hdes).2
      have h3 := (List.mem_filter.mp h1).2
      refine ⟨h3, gid, rfl, ?_⟩
      rcases List.any_eq_true.mp h2 with ⟨importedUri, hmem, heq⟩
      rw [eq_of_beq heq]
      exact hmem

/-- C1 amended witness: the ws1w grammar imports document b, so delegation
to the default resolution holds at this concrete input. -/
theorem C1_getScope_default_import_filtered_witness :
    GrammarScope.getScope GrammarScope.ws1w GrammarScope.ctx1 =
      GrammarScope.defaultGetScope GrammarScope.ws1w GrammarScope.ctx1 :=
  (C1_getScope_default_import_filtered GrammarScope.ws1w GrammarScope.ctx1 (by decide)).1

/-- C2 counterexample: an AbstractType reference inside a nested interface
node. The precomputed entry for the Interface description descT is recorded
at the document root; getScope finds it through the root-anchored local
layer, while the claimed local layer built from the entries at the
reference's container itself finds nothing. -/
theorem C2_getTypeScope_counterexample :
    (GrammarScope.getScope GrammarScope.ws2 GrammarScope.ctx2).getElement "T" =
      some GrammarScope.descT ∧
    (GrammarScope.getTypeScopeClaimC2 GrammarScope.ws2 GrammarScope.ctx2).getElement "T" =
      none := by
  constructor <;> rfl

/-- C2 amended: for AbstractType references, getScope behaves (on every
lookup) as the composition of the Interface/Type-filtered precomputed
entries at the ROOT node of the reference's document over the
import-filtered Interface/Type global layer, and a local description of a
given name is found before any import-provided one. -/
theorem C2_getScope_typeRef_amended (ws : GrammarScope.Workspace)
    (ctx : GrammarScope.ReferenceInfo)
    (h : ctx.referenceType = "AbstractType") :
    (∀ n, (GrammarScope.getScope ws ctx).getElement n =
      (GrammarScope.getTypeScopeAmendedC2 ws ctx).getElement n) ∧
    ∀ n d0, (GrammarScope.localTypeDescriptions ws ctx).find?
        (fun des => des.name == n) = some d0 →
      (GrammarScope.getScope ws ctx).getElement n = some d0 := by
  have hb : (ctx.referenceType == "AbstractType") = true := by simp [h]
  have hif : GrammarScope.getScope ws ctx = GrammarScope.getTypeScope ws "AbstractType" ctx := by
    unfold GrammarScope.getScope
    rw [hb]
    simp
  have hmain : ∀ n, (GrammarScope.getScope ws ctx).getElement n =
      (GrammarScope.getTypeScopeAmendedC2 ws ctx).getElement n := by
    intro n
    rw [hif]
    unfold GrammarScope.getTypeScope GrammarScope.getTypeScopeAmendedC2
      GrammarScope.localTypeDescriptions
    cases hp : (GrammarScope.getDoc ws ctx).precomputedScopes with
    | none =>
      simp only [hp]
      rfl
    | some precomputed =>
      simp only [hp]
      cases hA : GrammarScope.entriesAt precomputed
          (GrammarScope.findRootNode (GrammarScope.getDoc ws ctx) ctx.container) with
      | nil =>
        simp only [hA, List.length_nil, Nat.lt_irrefl, if_false]
        rfl
      | cons a as =>
        simp only [hA, List.length_cons, Nat.zero_lt_succ, if_true]
        rfl
  refine ⟨hmain, ?_⟩
  intro n d0 hfind
  rw [hmain n]
  unfold GrammarScope.getTypeScopeAmendedC2 GrammarScope.Scope.getElement
  rw [hfind]

/-- C2 amended witness: at the ws2 reference context the code scope and the
amended scope agree on the lookup of T, and the root-recorded local
description descT is what the lookup returns. -/
theorem C2_getScope_typeRef_amended_witness :
    (GrammarScope.getScope GrammarScope.ws2 GrammarScope.ctx2).getElement "T" =
      (GrammarScope.getTypeScopeAmendedC2 GrammarScope.ws2 GrammarScope.ctx2).getElement "T" ∧
    (GrammarScope.getScope GrammarScope.ws2 GrammarScope.ctx2).getElement "T" =
      some GrammarScope.descT :=
  ⟨(C2_getScope_typeRef_amended GrammarScope.ws2 GrammarScope.ctx2 rfl).1 "T",
   (C2_getScope_typeRef_amended GrammarScope.ws2 GrammarScope.ctx2 rfl).2 "T"
     GrammarScope.descT rfl⟩

/-- C5 counterexample: for the rule R infers X, the unique Interface-tagged
export is anchored at the InferredType node (node 1, path
/rules@0/inferredType, name segment 9..10), not at the rule node, whose name
token is 0..1. -/
theorem C5_exportNode_counterexample :
    ((GrammarScope.exportNode GrammarScope.ex5 0).filter
        (fun des => des.type == "Interface")).map
        (fun des => (des.name, des.node, des.path, des.nameSegment)) =
      [("X", 1, "/rules@0/inferredType", some ⟨9, 10⟩)] ∧
    (GrammarScope.ex5.node 0).map GrammarScope.GNode.nameSeg = some (some ⟨0, 1⟩) ∧
    (GrammarScope.ex5.node 0).map GrammarScope.GNode.path = some "/rules@0" ∧
    ((⟨9, 10⟩ : Seg) ≠ (⟨0, 1⟩ : Seg)) := by
  refine ⟨rfl, rfl, rfl, by decide⟩

/-- C5 amended: a parser rule with neither returns nor dataType additionally
exports a synthetic Interface description under its inferred-type name,
anchored at the InferredType node when an infers clause is present and at
the rule node itself otherwise, so the description's name segment matches
that anchor's name token. -/
theorem C5_exportNode_inferred_interface (d : GrammarScope.GDoc) (nid : Nat)
    (n : GrammarScope.GNode) (inferredType : Option Nat) (tnid : Nat)
    (tn : GrammarScope.GNode)
    (hn : d.node nid = some n)
    (hk : n.kind = .parserRule false false inferredType)
    (htn : tnid = inferredType.getD nid)
    (ht : d.node tnid = some tn) :
    GrammarScope.createInterfaceDescription d tnid (tn.name.getD "") ∈
      GrammarScope.exportNode d nid ∧
    (GrammarScope.createInterfaceDescription d tnid (tn.name.getD "")).type = "Interface" ∧
    (GrammarScope.createInterfaceDescription d tnid (tn.name.getD "")).node = tnid ∧
    (GrammarScope.createInterfaceDescription d tnid (tn.name.getD "")).path = tn.path ∧
    (GrammarScope.createInterfaceDescription d tnid (tn.name.getD "")).nameSegment =
      (match tn.nameSeg with | some s => some s | none => tn.cstSeg) ∧
    (inferredType = none → tnid = nid) := by
  subst htn
  refine ⟨?_, ?_, ?_, ?_, ?_, ?_⟩
  · unfold GrammarScope.exportNode
    simp only [hn, hk]
    simp only [Bool.not_false, Bool.and_self, if_pos]
    rw [ht]
    apply List.mem_append_left
    apply List.mem_append_right
    simp
  · unfold GrammarScope.createInterfaceDescription
    rw [ht]
  · unfold GrammarScope.createInterfaceDescription
    rw [ht]
  · unfold GrammarScope.createInterfaceDescription
    rw [ht]
  · unfold GrammarScope.createInterfaceDescription
    rw [ht]
  · intro h0
    rw [h0]
    rfl

/-- C5 amended witness: the plain rule of ex5w (no infers clause) anchors
the synthetic Interface export at the rule node, whose name token is the
rule's name token. -/
theorem C5_exportNode_inferred_interface_witness :
    GrammarScope.createInterfaceDescription GrammarScope.ex5w 0 "R" ∈
      GrammarScope.exportNode GrammarScope.ex5w 0 ∧
    (GrammarScope.createInterfaceDescription GrammarScope.ex5w 0 "R").nameSegment =
      some ⟨0, 1⟩ :=
  ⟨(C5_exportNode_inferred_interface GrammarScope.ex5w 0
      { container := none, kind := .parserRule false false none, name := some "R"
        nameSeg := some ⟨0, 1⟩, cstSeg := some ⟨0, 12⟩, path := "/rules@0" }
      none 0
      { container := none, kind := .parserRule false false none, name := some "R"
        nameSeg := some ⟨0, 1⟩, cstSeg := some ⟨0, 12⟩, path := "/rules@0" }
      rfl rfl rfl rfl).1,
   rfl⟩

/-- C6: a reference context whose container has no enclosing grammar (and
whose document's precomputed scopes were never built) resolves to the empty
scope as a value, for AbstractType and non-AbstractType references alike. -/
theorem C6_getScope_no_root_empty (ws : GrammarScope.Workspace)
    (ctx : GrammarScope.ReferenceInfo)
    (hg : GrammarScope.containingGrammar (GrammarScope.getDoc ws ctx)
      (GrammarScope.getDoc ws ctx).nodes.length ctx.container = none)
    (hp : (GrammarScope.getDoc ws ctx).precomputedScopes = none) :
    GrammarScope.getScope ws ctx = GrammarScope.EMPTY_SCOPE := by
  unfold GrammarScope.getScope
  cases hB : (ctx.referenceType == "AbstractType") with
  | true =>
    simp only [if_pos]
    unfold GrammarScope.getTypeScope GrammarScope.getGlobalScope
    simp only [hp, hg]
  | false =>
    simp only [Bool.false_eq_true, if_false]
    unfold GrammarScope.defaultGetScope GrammarScope.getGlobalScope
    simp only [hp, hg]
    rfl

/-- C6 witness: in ws3 the document root is an interface declaration, not a
grammar, and the index is nonempty; the resolved scope is the empty scope. -/
theorem C6_getScope_no_root_empty_witness :
    GrammarScope.getScope GrammarScope.ws3 GrammarScope.ctx3 = GrammarScope.EMPTY_SCOPE :=
  C6_getScope_no_root_empty GrammarScope.ws3 GrammarScope.ctx3 rfl rfl

/-- C8: an infer-action's synthetic Interface description is recorded at the
document's root node, hence visible from every node sharing that root,
whereas the rule-level inferred-type description is recorded at the rule's
immediate container. -/
theorem C8_actionType_root_ruleType_container (d : GrammarScope.GDoc)
    (aid : Nat) (a : GrammarScope.GNode) (tname : String) (c : Nat)
    (rid : Nat) (r : GrammarScope.GNode) (rc : Nat) (inferredType : Option Nat)
    (ha : d.node aid = some a) (hak : a.kind = .action (some tname))
    (haid : aid < d.nodes.length)
    (hroot : GrammarScope.findRootNode d c = GrammarScope.findRootNode d aid)
    (hr : d.node rid = some r)
    (hrk : r.kind = .parserRule false false inferredType)
    (hrc : r.container = some rc) :
    GrammarScope.processActionNodeEntries d aid =
      [(GrammarScope.findRootNode d aid,
        GrammarScope.createInterfaceDescription d aid tname)] ∧
    GrammarScope.createInterfaceDescription d aid tname ∈
      GrammarScope.visibleAt d (GrammarScope.computeScopes d) c ∧
    GrammarScope.processTypeNodeEntries d rid =
      [(rc, GrammarScope.createInterfaceDescription d (inferredType.getD rid)
        (match d.node (inferredType.getD rid) with
         | some tn => tn.name.getD ""
         | none => ""))] := by
  have hact : GrammarScope.processActionNodeEntries d aid =
      [(GrammarScope.findRootNode d aid,
        GrammarScope.createInterfaceDescription d aid tname)] := by
    unfold GrammarScope.processActionNodeEntries
    simp only [ha, hak]
  refine ⟨hact, ?_, ?_⟩
  · have hentry : (GrammarScope.findRootNode d aid,
        GrammarScope.createInterfaceDescription d aid tname) ∈
        GrammarScope.computeScopes d := by
      unfold GrammarScope.computeScopes
      refine List.mem_flatMap.mpr ⟨aid, List.mem_range.mpr haid, ?_⟩
      unfold GrammarScope.processNodeEntries
      simp only [ha, hak]
      refine List.mem_append_left _ (List.mem_append_right _ ?_)
      rw [hact]
      simp
    have hkey : GrammarScope.createInterfaceDescription d aid tname ∈
        GrammarScope.entriesAt (GrammarScope.computeScopes d)
          (GrammarScope.findRootNode d aid) := by
      unfold GrammarScope.entriesAt
      refine List.mem_map.mpr ⟨(GrammarScope.findRootNode d aid,
        GrammarScope.createInterfaceDescription d aid tname), ?_, rfl⟩
      exact List.mem_filter.mpr ⟨hentry, by simp⟩
    unfold GrammarScope.visibleAt
    refine List.mem_flatMap.mpr ⟨GrammarScope.findRootNode d aid, ?_, hkey⟩
    rw [← hroot]
    exact findRootNodeFuel_mem_containerChain d d.nodes.length c
  · unfold GrammarScope.processTypeNodeEntries
    simp only [hr, hrc, hrk]
    simp

/-- C8 witness: in d8 the infer-action's Interface description is visible
from the unrelated interface-declaration node 3, which only shares the
document root with the action. -/
theorem C8_actionType_root_ruleType_container_witness :
    GrammarScope.createInterfaceDescription GrammarScope.d8 2 "A" ∈
      GrammarScope.visibleAt GrammarScope.d8 (GrammarScope.computeScopes GrammarScope.d8) 3 :=
  (C8_actionType_root_ruleType_container GrammarScope.d8 2
      { container := some 1, kind := .action (some "A"), name := none
        nameSeg := none, cstSeg := some ⟨20, 28⟩, path := "/rules@0/definition" }
      "A" 3 1
      { container := some 0, kind := .parserRule false false none, name := some "R"
        nameSeg := some ⟨10, 11⟩, cstSeg := some ⟨10, 30⟩, path := "/rules@0" }
      0 none rfl rfl (by decide) rfl rfl rfl rfl).2.1

/-- C7: evaluation of the modelled interface-extends-inferred check at the
claim's grammar: exactly one diagnostic, attached to the interface's
superTypes property, but its severity is error (as the repository's own
test asserts via expectError), not warning. -/
theorem C7_checkInterfaceExtendsInferred_eval :
    Validation.checkInterfaceExtendsInferred Validation.g7 =
      [{ severity := "error"
         message := "Extending an inferred type is discouraged."
         nodeName := "DeclaredExtendsInferred"
         property := some "superTypes" }] ∧
    (Validation.checkInterfaceExtendsInferred Validation.g7).all
      (fun diag => diag.severity == "error") = true := by
  exact ⟨rfl, rfl⟩

/-- C9 witness: in exC4 the target lives in document a while the filter asks
for document b; the self-reference is still returned, local, with identical
source and target identity. -/
theorem C9_findReferences_selfRef_witness :
    { sourceUri := "file:///a.langium", sourcePath := "/rules@0"
      targetUri := "file:///a.langium", targetPath := "/rules@0"
      segment := some ⟨5, 8⟩, local_ := true : Refs.ReferenceDescription } ∈
        Refs.findReferences Refs.exC4 0 Refs.optsC4 :=
  (C9_findReferences_selfRef Refs.exC4 0 Refs.optsC4 "file:///b.langium"
      { sourceUri := "file:///a.langium", sourcePath := "/rules@0"
        targetUri := "file:///a.langium", targetPath := "/rules@0"
        segment := some ⟨5, 8⟩, local_ := true }
      rfl rfl rfl).1

end Langium
